import Mathlib

/-!
Verification development for the FASTA parse-and-summarize pipeline of this
repository.  The core under study is the function `convert`, which exists in
two variants: `src/code.py` (scipy-based mode, unguarded CSV export) and
`src/code2.py` (pandas value_counts-based mode, export guarded by
try/except pass).  Both variants parse a FASTA text with
`Bio.SeqIO.parse(..., "fasta")`, build a DataFrame with columns
`[Id, Sequence, Length]`, and compute mean/median/mode statistics over the
`Length` column.

The embedding below models:
  * the Biopython FASTA reader (`SimpleFastaParser` semantics) as
    `parseRecords` over the list of input lines;
  * the DataFrame as a list of `Row`;
  * `Series.mean` / `Series.median` exactly, over `ℚ`;
  * `scipy.stats.mode` as `scipyMode`: distinct values in ascending order
    (`np.unique`) paired with counts, first maximal count taken
    (`np.argmax`), hence the smallest value among tied counts — this is
    scipy's documented tie behavior;
  * the `value_counts().sort_values(ascending=False)` selection of code2 as
    `pandasMode`: keys in first-appearance order (the hash table underlying
    `value_counts`), each descending sort modelled as the reverse of a
    stable ascending sort by count (pandas `nargsort` computes the ascending
    permutation and reverses it; numpy's sort is stable on the small arrays
    at issue), applied twice: once inside `value_counts()` and once by the
    explicit `.sort_values(ascending=False)` in code2;
  * the control flow of each `convert` (error paths, the empty-record check
    or its absence, the placement of `df.to_csv` and whether its failure is
    caught) as total functions from a `FileInput` and an export-success flag
    to a `ConvertResult`.
-/

namespace FastaMicro

/-- One parsed FASTA record: identifier and residue string, as produced by
`Bio.SeqIO.parse(..., "fasta")`. -/
structure Record where
  id : String
  seq : String
deriving Repr, DecidableEq

/-- A line opens a record exactly when it starts with the FASTA header
marker: `line[0] == ">"` in the reader. -/
def isHeader (l : String) : Bool :=
  match l.data with
  | [] => false
  | c :: _ => c == '>'

/-- Trailing-whitespace strip on a line's characters, modelling Python
`str.rstrip()`. -/
def rstripChars (cs : List Char) : List Char :=
  (cs.reverse.dropWhile Char.isWhitespace).reverse

/-- Sequence-line cleanup of the Biopython FASTA reader: each line is
rstripped and its blanks removed (`"".join(lines).replace(" ", "")`), so
only residue characters reach the sequence string. -/
def cleanSeqLine (l : String) : String :=
  String.mk ((rstripChars l.data).filter (fun c => !(c == ' ')))

/-- Identifier taken from a header line: the first whitespace-delimited word
after the marker (`record.id` in Biopython), empty when the header carries
no word. -/
def headerId (l : String) : String :=
  String.mk (((l.data.drop 1).dropWhile Char.isWhitespace).takeWhile
    (fun c => !c.isWhitespace))

/-- One step of the record iterator: a header line flushes the current
record and opens a new one; any other line extends the current record's
sequence; lines before the first header are dropped. -/
def parseStep (acc : List Record × Option Record) (l : String) :
    List Record × Option Record :=
  if isHeader l then
    match acc with
    | (done, none) => (done, some ⟨headerId l, ""⟩)
    | (done, some r) => (done ++ [r], some ⟨headerId l, ""⟩)
  else
    match acc with
    | (done, none) => (done, none)
    | (done, some r) => (done, some ⟨r.id, r.seq ++ cleanSeqLine l⟩)

/-- The records of a FASTA text, in file order: the materialized iterator
`list(SeqIO.parse(...))` that both variants of `convert` consume. -/
def parseRecords (lines : List String) : List Record :=
  match lines.foldl parseStep ([], none) with
  | (done, none) => done
  | (done, some r) => done ++ [r]

/-- A row of the output table, with the fixed schema `[Id, Sequence,
Length]`. -/
structure Row where
  Id : String
  Sequence : String
  Length : Nat
deriving Repr, DecidableEq

/-- The row built from one record: `convert` appends `record.id`,
`str(record.seq)` and `len(record.seq)` to the three column lists. -/
def rowOf (r : Record) : Row := ⟨r.id, r.seq, r.seq.length⟩

/-- The DataFrame built by `convert`: one row per record, in parse order. -/
def mkTable (rs : List Record) : List Row := rs.map rowOf

/-- The `Length` column exactly as `convert` fills it: `len(record.seq)`
for each record, in parse order. -/
def lengthsOf (rs : List Record) : List Nat := rs.map (fun r => r.seq.length)

/-- `df["Length"].mean()`: the arithmetic mean, as an exact rational. -/
def meanLen (l : List Nat) : ℚ := (l.sum : ℚ) / (l.length : ℚ)

/-- `df["Length"].median()`: middle element of the sorted values for odd
size, average of the two middle elements for even size. -/
def medianLen (l : List Nat) : ℚ :=
  let s := List.insertionSort (· ≤ ·) l
  if l.length % 2 = 1 then ((s.getD (l.length / 2) 0 : ℕ) : ℚ)
  else
    (((s.getD (l.length / 2 - 1) 0 : ℕ) : ℚ) + ((s.getD (l.length / 2) 0 : ℕ) : ℚ)) / 2

/-- The distinct values in ascending order: `np.unique` applied to the
`Length` column, as used inside `scipy.stats.mode`. -/
def uniqueSorted (l : List Nat) : List Nat :=
  List.insertionSort (· ≤ ·) l.dedup

/-- The `np.argmax` scan over value/count pairs: keep the running best and
replace it only on a strictly larger count, so the first maximal entry
wins. -/
def pickFirstMax (best : Nat × Nat) : List (Nat × Nat) → Nat × Nat
  | [] => best
  | p :: ps => pickFirstMax (if best.2 < p.2 then p else best) ps

/-- `scipy.stats.mode(df["Length"], keepdims=True)`: ascending distinct
values paired with their occurrence counts, first maximal count taken —
hence the smallest value among tied maximal counts, which is scipy's
documented behavior. -/
def scipyMode (l : List Nat) : Nat × Nat :=
  match (uniqueSorted l).map (fun v => (v, l.count v)) with
  | [] => (0, 0)
  | p :: ps => pickFirstMax p ps

/-- Distinct values in order of first appearance, with a seen-list
accumulator: the key order of the hash table underlying pandas
`value_counts`. -/
def uniquesAux (seen : List Nat) : List Nat → List Nat
  | [] => []
  | x :: xs =>
    if x ∈ seen then uniquesAux seen xs else x :: uniquesAux (x :: seen) xs

/-- Distinct values of the `Length` column in first-appearance order. -/
def uniquesInOrder (l : List Nat) : List Nat := uniquesAux [] l

/-- The raw value/count pairs behind `value_counts`, keyed in
first-appearance order before any sorting. -/
def vcPairs (l : List Nat) : List (Nat × Nat) :=
  (uniquesInOrder l).map (fun v => (v, l.count v))

/-- One pandas `sort_values(ascending=False)` by count: `nargsort` computes
the ascending permutation of the counts (stable on the small arrays at
issue) and reverses it. -/
def sortDescByCount (ps : List (Nat × Nat)) : List (Nat × Nat) :=
  (List.insertionSort (fun a b : Nat × Nat => a.2 ≤ b.2) ps).reverse

/-- `df["Length"].value_counts()`: value/count pairs sorted by count
descending. -/
def valueCounts (l : List Nat) : List (Nat × Nat) := sortDescByCount (vcPairs l)

/-- The series `vc` of code2: `value_counts()` followed by the explicit
`.sort_values(ascending=False)`. -/
def pandasModeVC (l : List Nat) : List (Nat × Nat) :=
  sortDescByCount (valueCounts l)

/-- code2's mode selection: `(int(vc.index[0]), int(vc.iloc[0]))`. -/
def pandasMode (l : List Nat) : Nat × Nat := (pandasModeVC l).headD (0, 0)

/-- The statistics record returned by both variants of `convert`. -/
structure Stats where
  mean : ℚ
  median : ℚ
  mode : Nat
  modeCount : Nat
deriving Repr, DecidableEq

/-- The stats dict of `src/code.py`: pandas mean/median, scipy mode. -/
def statsOf1 (l : List Nat) : Stats :=
  ⟨meanLen l, medianLen l, (scipyMode l).1, (scipyMode l).2⟩

/-- The stats dict of `src/code2.py`: pandas mean/median, value_counts
mode. -/
def statsOf2 (l : List Nat) : Stats :=
  ⟨meanLen l, medianLen l, (pandasMode l).1, (pandasMode l).2⟩

/-- The state of the input path: missing file, existing but unreadable
file, or readable content given as its list of lines. -/
inductive FileInput where
  | missing
  | unreadable
  | content (lines : List String)

/-- The failure outcomes of `convert` in `src/code.py`: the three distinct
message paths, plus the uncaught exception raised by the unguarded
`df.to_csv`. -/
inductive Err1 where
  /-- messagebox "File is not available." on FileNotFoundError -/
  | fileNotFound
  /-- messagebox "Error reading fasta file: ..." on any other read error -/
  | readError
  /-- messagebox "No sequences found in FASTA file." when no record parsed -/
  | noSequences
  /-- exception from `df.to_csv` propagates out of `convert` uncaught -/
  | exportException
deriving Repr, DecidableEq

/-- The failure outcomes of `convert` in `src/code2.py`: the exceptions it
lets propagate to the caller. -/
inductive Err2 where
  /-- `Path.open` raises FileNotFoundError -/
  | fileNotFoundError
  /-- `Path.open`/read raises an OSError such as PermissionError -/
  | osError
  /-- `vc.index[0]` raises IndexError when no record was parsed -/
  | indexError
deriving Repr, DecidableEq

/-- Observable outcome of one `convert` call: whether
`project_output.csv` was written, and either an error or the returned
`(DataFrame, stats)` pair. -/
structure ConvertResult (ε : Type) where
  written : Bool
  result : Except ε (List Row × Stats)

/-- `convert` of `src/code.py`.  Error paths return `(None, None)` after a
messagebox; the empty check precedes the DataFrame; `df.to_csv` runs after
the statistics and is unguarded, so a failing export raises out of
`convert` and nothing is returned (`exportOk` says whether the write
succeeds). -/
def convert1 (input : FileInput) (exportOk : Bool) : ConvertResult Err1 :=
  match input with
  | .missing => ⟨false, .error .fileNotFound⟩
  | .unreadable => ⟨false, .error .readError⟩
  | .content lines =>
    let recs := parseRecords lines
    if recs.isEmpty then ⟨false, .error .noSequences⟩
    else
      if exportOk then ⟨true, .ok (mkTable recs, statsOf1 (lengthsOf recs))⟩
      else ⟨false, .error .exportException⟩

/-- `convert` of `src/code2.py`.  `p.open` errors propagate; there is no
empty check, so zero records reach `vc.index[0]` and raise IndexError
before `df.to_csv`; the export is wrapped in `try/except: pass`, so its
failure changes nothing about the returned value. -/
def convert2 (input : FileInput) (exportOk : Bool) : ConvertResult Err2 :=
  match input with
  | .missing => ⟨false, .error .fileNotFoundError⟩
  | .unreadable => ⟨false, .error .osError⟩
  | .content lines =>
    let recs := parseRecords lines
    if recs.isEmpty then ⟨false, .error .indexError⟩
    else ⟨exportOk, .ok (mkTable recs, statsOf2 (lengthsOf recs))⟩

/-- Number of records the parser state will deliver once finalized: the
finished records plus the record still being accumulated. -/
def flushCount (acc : List Record × Option Record) : Nat :=
  acc.1.length + (if acc.2.isSome then 1 else 0)

instance : IsTotal (Nat × Nat) (fun a b : Nat × Nat => a.2 ≤ b.2) :=
  ⟨fun a b => Nat.le_total a.2 b.2⟩

instance : IsTrans (Nat × Nat) (fun a b : Nat × Nat => a.2 ≤ b.2) :=
  ⟨fun _ _ _ => Nat.le_trans⟩

/-- FASTA text whose record lengths are `[3, 3, 5, 5, 7]`: the tie-break
example of the specification. -/
def tieLines : List String :=
  [">r1", "AAA", ">r2", "CCC", ">r3", "GGGGG", ">r4", "TTTTT", ">r5", "AAAAAAA"]

/-- FASTA text whose record lengths are `[5, 5, 3, 3]`: the two mode
selections disagree here. -/
def tieLines2 : List String :=
  [">a", "AAAAA", ">b", "CCCCC", ">c", "GGG", ">d", "TTT"]

/-- A two-line FASTA text with a single record of length 4. -/
def oneRecLines : List String := [">s1", "ACGT"]

/-- The three-record scenario of the specification. -/
def demoLines : List String :=
  [">seq1 desc", "ACGT", ">seq2", "ACG", ">seq3", "ACGTAC"]

/-- One parser step adds a record-to-be exactly on header lines. -/
theorem flushCount_parseStep (acc : List Record × Option Record) (l : String) :
    flushCount (parseStep acc l) =
      flushCount acc + (if isHeader l then 1 else 0) := by
  rcases acc with ⟨done, c⟩
  by_cases h : isHeader l <;> cases c <;> simp [parseStep, flushCount, h]

/-- Folding the parser over lines adds one pending record per header line. -/
theorem foldl_flushCount (lines : List String) :
    ∀ acc : List Record × Option Record,
      flushCount (lines.foldl parseStep acc) =
        flushCount acc + (lines.filter isHeader).length := by
  induction lines with
  | nil => intro acc; simp
  | cons l ls ih =>
    intro acc
    rw [List.foldl_cons, ih (parseStep acc l), flushCount_parseStep]
    by_cases h : isHeader l
    · simp [h]
      omega
    · simp [h]

/-- The parser yields exactly one record per header line. -/
theorem parseRecords_length (lines : List String) :
    (parseRecords lines).length = (lines.filter isHeader).length := by
  have h := foldl_flushCount lines ([], none)
  unfold parseRecords
  rcases hm : lines.foldl parseStep ([], none) with ⟨done, c⟩
  rw [hm] at h
  cases c <;> simp [flushCount] at h ⊢ <;> omega

/-- The argmax scan returns one of its candidates. -/
theorem pickFirstMax_mem (ps : List (Nat × Nat)) :
    ∀ best, pickFirstMax best ps ∈ best :: ps := by
  induction ps with
  | nil => intro b; simp [pickFirstMax]
  | cons p ps ih =>
    intro b
    show pickFirstMax (if b.2 < p.2 then p else b) ps ∈ b :: p :: ps
    by_cases hb : b.2 < p.2
    · rw [if_pos hb]
      rcases List.mem_cons.1 (ih p) with h1 | h1
      · rw [h1]; exact List.mem_cons_of_mem _ (List.mem_cons_self _ _)
      · exact List.mem_cons_of_mem _ (List.mem_cons_of_mem _ h1)
    · rw [if_neg hb]
      rcases List.mem_cons.1 (ih b) with h1 | h1
      · rw [h1]; exact List.mem_cons_self _ _
      · exact List.mem_cons_of_mem _ (List.mem_cons_of_mem _ h1)

/-- The argmax scan dominates the count of every candidate. -/
theorem pickFirstMax_ge (ps : List (Nat × Nat)) :
    ∀ best, ∀ q ∈ best :: ps, q.2 ≤ (pickFirstMax best ps).2 := by
  induction ps with
  | nil =>
    intro b q hq
    rw [List.mem_singleton] at hq
    rw [hq]
    exact Nat.le_refl _
  | cons p ps ih =>
    intro b q hq
    show q.2 ≤ (pickFirstMax (if b.2 < p.2 then p else b) ps).2
    have hc : b.2 ≤ (if b.2 < p.2 then p else b).2 := by
      by_cases hb : b.2 < p.2
      · rw [if_pos hb]; exact Nat.le_of_lt hb
      · rw [if_neg hb]
    have hp : p.2 ≤ (if b.2 < p.2 then p else b).2 := by
      by_cases hb : b.2 < p.2
      · rw [if_pos hb]
      · rw [if_neg hb]; exact Nat.le_of_not_lt hb
    have hself : (if b.2 < p.2 then p else b).2 ≤
        (pickFirstMax (if b.2 < p.2 then p else b) ps).2 :=
      ih _ _ (List.mem_cons_self _ _)
    rcases List.mem_cons.1 hq with h1 | h1
    · rw [h1]; exact Nat.le_trans hc hself
    · rcases List.mem_cons.1 h1 with h2 | h2
      · rw [h2]; exact Nat.le_trans hp hself
      · exact ih _ q (List.mem_cons_of_mem _ h2)

/-- The argmax scan either keeps its seed or strictly improves on it. -/
theorem pickFirstMax_eq_or_lt (ps : List (Nat × Nat)) :
    ∀ best, pickFirstMax best ps = best ∨ best.2 < (pickFirstMax best ps).2 := by
  induction ps with
  | nil => intro b; exact Or.inl rfl
  | cons p ps ih =>
    intro b
    show pickFirstMax (if b.2 < p.2 then p else b) ps = b ∨
      b.2 < (pickFirstMax (if b.2 < p.2 then p else b) ps).2
    by_cases hb : b.2 < p.2
    · rw [if_pos hb]
      right
      have h1 : p.2 ≤ (pickFirstMax p ps).2 :=
        pickFirstMax_ge ps p p (List.mem_cons_self p ps)
      omega
    · rw [if_neg hb]
      exact ih b

/-- Over candidates whose first components ascend, the argmax scan returns
the entry with the smallest first component among maximal counts: a later
tie never displaces the running best. -/
theorem pickFirstMax_least (ps : List (Nat × Nat)) :
    ∀ best, List.Pairwise (fun a c : Nat × Nat => a.1 ≤ c.1) (best :: ps) →
      ∀ q ∈ best :: ps, q.2 = (pickFirstMax best ps).2 →
        (pickFirstMax best ps).1 ≤ q.1 := by
  induction ps with
  | nil =>
    intro b _ q hq _
    rw [List.mem_singleton] at hq
    rw [hq]
    exact Nat.le_refl _
  | cons p ps ih =>
    intro b hpw q hq hcnt
    have hbp : b.1 ≤ p.1 := (List.pairwise_cons.1 hpw).1 p (List.mem_cons_self p ps)
    have hbps : ∀ x ∈ ps, b.1 ≤ x.1 := fun x hx =>
      (List.pairwise_cons.1 hpw).1 x (List.mem_cons_of_mem p hx)
    have hpps : ∀ x ∈ ps, p.1 ≤ x.1 := fun x hx =>
      (List.pairwise_cons.1 (List.pairwise_cons.1 hpw).2).1 x hx
    have hps : List.Pairwise (fun a c : Nat × Nat => a.1 ≤ c.1) ps :=
      (List.pairwise_cons.1 (List.pairwise_cons.1 hpw).2).2
    rw [show pickFirstMax b (p :: ps) =
      pickFirstMax (if b.2 < p.2 then p else b) ps from rfl] at hcnt ⊢
    by_cases hb : b.2 < p.2
    · rw [if_pos hb] at hcnt ⊢
      have hpw2 : List.Pairwise (fun a c : Nat × Nat => a.1 ≤ c.1) (p :: ps) :=
        List.pairwise_cons.2 ⟨hpps, hps⟩
      rcases List.mem_cons.1 hq with h1 | h1
      · exfalso
        have h2 : p.2 ≤ (pickFirstMax p ps).2 :=
          pickFirstMax_ge ps p p (List.mem_cons_self p ps)
        rw [h1] at hcnt
        omega
      · exact ih p hpw2 q h1 hcnt
    · rw [if_neg hb] at hcnt ⊢
      have hnb : p.2 ≤ b.2 := Nat.le_of_not_lt hb
      have hpw2 : List.Pairwise (fun a c : Nat × Nat => a.1 ≤ c.1) (b :: ps) :=
        List.pairwise_cons.2 ⟨hbps, hps⟩
      rcases List.mem_cons.1 hq with h1 | h1
      · refine ih b hpw2 q ?_ hcnt
        rw [h1]
        exact List.mem_cons_self b ps
      · rcases List.mem_cons.1 h1 with h2 | h2
        · rcases pickFirstMax_eq_or_lt ps b with h3 | h3
          · rw [h3, h2]; exact hbp
          · exfalso
            rw [h2] at hcnt
            omega
        · exact ih b hpw2 q (List.mem_cons_of_mem b h2) hcnt

/-- Membership in the ascending distinct-value list is membership in the
column. -/
theorem mem_uniqueSorted (l : List Nat) (v : Nat) :
    v ∈ uniqueSorted l ↔ v ∈ l := by
  rw [uniqueSorted, (List.perm_insertionSort _ _).mem_iff, List.mem_dedup]

/-- A nonempty column has a nonempty ascending distinct-value list. -/
theorem uniqueSorted_ne_nil (l : List Nat) (h : l ≠ []) :
    uniqueSorted l ≠ [] := by
  rcases List.exists_mem_of_ne_nil l h with ⟨x, hx⟩
  intro hnil
  have hx2 : x ∈ uniqueSorted l := (mem_uniqueSorted l x).2 hx
  rw [hnil] at hx2
  exact List.not_mem_nil x hx2

/-- Characterization of `scipyMode`: the returned value occurs in the
column, the returned count is its frequency, no value is more frequent,
and among equally frequent values the returned one is smallest — scipy's
documented tie behavior. -/
theorem scipyMode_spec (l : List Nat) (h : l ≠ []) :
    (scipyMode l).1 ∈ l ∧ (scipyMode l).2 = l.count (scipyMode l).1 ∧
    (∀ v ∈ l, l.count v ≤ (scipyMode l).2) ∧
    (∀ v ∈ l, l.count v = (scipyMode l).2 → (scipyMode l).1 ≤ v) := by
  rcases hus : (uniqueSorted l).map (fun v => (v, l.count v)) with _ | ⟨p, ps⟩
  · exfalso
    apply uniqueSorted_ne_nil l h
    exact List.map_eq_nil_iff.1 hus
  · have hmode : scipyMode l = pickFirstMax p ps := by
      unfold scipyMode
      rw [hus]
    obtain ⟨v, hv, hvp⟩ := List.mem_map.1 (by rw [hus]; exact pickFirstMax_mem ps p)
    have hm1 : (scipyMode l).1 = v := by rw [hmode, ← hvp]
    have hm2 : (scipyMode l).2 = l.count v := by rw [hmode, ← hvp]
    have hsorted : List.Sorted (· ≤ ·) (uniqueSorted l) := by
      unfold uniqueSorted
      exact List.sorted_insertionSort _ _
    have hpw : List.Pairwise (fun a c : Nat × Nat => a.1 ≤ c.1)
        ((uniqueSorted l).map (fun v => (v, l.count v))) :=
      List.pairwise_map.2 hsorted
    rw [hus] at hpw
    refine ⟨?_, ?_, ?_, ?_⟩
    · rw [hm1]; exact (mem_uniqueSorted l v).1 hv
    · rw [hm2, hm1]
    · intro w hw
      have hw2 : (w, l.count w) ∈ p :: ps := by
        rw [← hus]
        exact List.mem_map_of_mem _ ((mem_uniqueSorted l w).2 hw)
      rw [hmode]
      exact pickFirstMax_ge ps p _ hw2
    · intro w hw hwc
      have hw2 : (w, l.count w) ∈ p :: ps := by
        rw [← hus]
        exact List.mem_map_of_mem _ ((mem_uniqueSorted l w).2 hw)
      rw [hmode]
      exact pickFirstMax_least ps p hpw (w, l.count w) hw2 (by rw [← hmode]; exact hwc)

/-- Membership for the seen-list accumulator behind `uniquesInOrder`. -/
theorem mem_uniquesAux (l : List Nat) :
    ∀ seen v, v ∈ uniquesAux seen l ↔ v ∈ l ∧ v ∉ seen := by
  induction l with
  | nil => intro seen v; simp [uniquesAux]
  | cons x xs ih =>
    intro seen v
    simp only [uniquesAux]
    by_cases hx : x ∈ seen
    · rw [if_pos hx, ih seen v, List.mem_cons]
      constructor
      · rintro ⟨h1, h2⟩
        exact ⟨Or.inr h1, h2⟩
      · rintro ⟨h1 | h1, h2⟩
        · exfalso
          rw [h1] at h2
          exact h2 hx
        · exact ⟨h1, h2⟩
    · rw [if_neg hx, List.mem_cons, ih (x :: seen) v, List.mem_cons, List.mem_cons]
      constructor
      · rintro (h1 | ⟨h1, h2⟩)
        · refine ⟨Or.inl h1, ?_⟩
          rw [h1]
          exact hx
        · refine ⟨Or.inr h1, ?_⟩
          intro hv
          exact h2 (Or.inr hv)
      · rintro ⟨h1 | h1, h2⟩
        · exact Or.inl h1
        · by_cases hvx : v = x
          · exact Or.inl hvx
          · refine Or.inr ⟨h1, ?_⟩
            rintro (h3 | h3)
            · exact hvx h3
            · exact h2 h3

/-- Membership in the first-appearance distinct-value list is membership in
the column. -/
theorem mem_uniquesInOrder (l : List Nat) (v : Nat) :
    v ∈ uniquesInOrder l ↔ v ∈ l := by
  simp [uniquesInOrder, mem_uniquesAux]

/-- A nonempty column yields nonempty raw value-count pairs. -/
theorem vcPairs_ne_nil (l : List Nat) (h : l ≠ []) : vcPairs l ≠ [] := by
  unfold vcPairs
  intro hnil
  rw [List.map_eq_nil_iff] at hnil
  rcases List.exists_mem_of_ne_nil l h with ⟨x, hx⟩
  have hx2 : x ∈ uniquesInOrder l := (mem_uniquesInOrder l x).2 hx
  rw [hnil] at hx2
  exact List.not_mem_nil x hx2

/-- The modelled descending sort is a permutation. -/
theorem sortDescByCount_perm (ps : List (Nat × Nat)) :
    List.Perm (sortDescByCount ps) ps := by
  unfold sortDescByCount
  exact (List.reverse_perm _).trans (List.perm_insertionSort _ _)

/-- The first entry after the modelled descending sort dominates every
count. -/
theorem sortDescByCount_head_ge (ps : List (Nat × Nat)) (d : Nat × Nat) :
    ∀ q ∈ ps, q.2 ≤ ((sortDescByCount ps).headD d).2 := by
  intro q hq
  have hq2 : q ∈ sortDescByCount ps := (sortDescByCount_perm ps).mem_iff.2 hq
  have hsort : List.Sorted (fun a b : Nat × Nat => a.2 ≤ b.2)
      (List.insertionSort (fun a b : Nat × Nat => a.2 ≤ b.2) ps) :=
    List.sorted_insertionSort _ _
  have hpw : List.Pairwise (fun a b : Nat × Nat => b.2 ≤ a.2) (sortDescByCount ps) := by
    unfold sortDescByCount
    exact List.pairwise_reverse.2 hsort
  rcases hd : sortDescByCount ps with _ | ⟨h0, t⟩
  · rw [hd] at hq2
    exact absurd hq2 (List.not_mem_nil q)
  · rw [hd] at hq2 hpw
    rw [List.headD_cons]
    rcases List.mem_cons.1 hq2 with h1 | h1
    · rw [h1]
    · exact (List.pairwise_cons.1 hpw).1 q h1

/-- The twice-sorted series of code2 is a permutation of the raw pairs. -/
theorem pandasModeVC_perm (l : List Nat) :
    List.Perm (pandasModeVC l) (vcPairs l) := by
  unfold pandasModeVC valueCounts
  exact (sortDescByCount_perm _).trans (sortDescByCount_perm _)

/-- Characterization of `pandasMode`: the returned value occurs in the
column, the returned count is its frequency, and no value is more
frequent. -/
theorem pandasMode_spec (l : List Nat) (h : l ≠ []) :
    (pandasMode l).1 ∈ l ∧ (pandasMode l).2 = l.count (pandasMode l).1 ∧
    (∀ v ∈ l, l.count v ≤ (pandasMode l).2) := by
  have hne : pandasModeVC l ≠ [] := by
    intro hnil
    rcases List.exists_mem_of_ne_nil _ (vcPairs_ne_nil l h) with ⟨x, hx⟩
    have hx2 : x ∈ pandasModeVC l := (pandasModeVC_perm l).mem_iff.2 hx
    rw [hnil] at hx2
    exact List.not_mem_nil x hx2
  have hhead : (pandasModeVC l).headD (0, 0) ∈ pandasModeVC l := by
    rcases hd : pandasModeVC l with _ | ⟨h0, t⟩
    · exact absurd hd hne
    · rw [List.headD_cons]
      exact List.mem_cons_self _ _
  have hmem : (pandasModeVC l).headD (0, 0) ∈ vcPairs l :=
    (pandasModeVC_perm l).mem_iff.1 hhead
  obtain ⟨v, hv, hvp⟩ := List.mem_map.1 hmem
  have hm1 : (pandasMode l).1 = v := by rw [pandasMode, ← hvp]
  have hm2 : (pandasMode l).2 = l.count v := by rw [pandasMode, ← hvp]
  refine ⟨?_, ?_, ?_⟩
  · rw [hm1]
    exact (mem_uniquesInOrder l v).1 hv
  · rw [hm2, hm1]
  · intro w hw
    have hw2 : (w, l.count w) ∈ valueCounts l :=
      (sortDescByCount_perm (vcPairs l)).mem_iff.2
        (List.mem_map_of_mem _ ((mem_uniquesInOrder l w).2 hw))
    exact sortDescByCount_head_ge (valueCounts l) (0, 0) _ hw2

/-- Both mode selections report the same count: the maximal frequency. -/
theorem modeCounts_eq (l : List Nat) (h : l ≠ []) :
    (scipyMode l).2 = (pandasMode l).2 := by
  obtain ⟨hm1, hc1, hmax1, _⟩ := scipyMode_spec l h
  obtain ⟨hm2, hc2, hmax2⟩ := pandasMode_spec l h
  apply Nat.le_antisymm
  · rw [hc1]
    exact hmax2 _ hm1
  · rw [hc2]
    exact hmax1 _ hm2

/-- The Length column of the built table is the lengths list the statistics
are computed from. -/
theorem mkTable_map_length (rs : List Record) :
    (mkTable rs).map Row.Length = lengthsOf rs := by
  simp [mkTable, lengthsOf, rowOf, List.map_map, Function.comp]

/-- The table has one row per record. -/
theorem mkTable_length (rs : List Record) : (mkTable rs).length = rs.length := by
  simp [mkTable]

/-- The lengths list has one entry per record. -/
theorem lengthsOf_length (rs : List Record) : (lengthsOf rs).length = rs.length := by
  simp [lengthsOf]

/-- Nonempty records give a nonempty lengths list. -/
theorem lengthsOf_ne_nil (rs : List Record) (h : rs ≠ []) : lengthsOf rs ≠ [] := by
  simpa [lengthsOf] using h

/-- Inversion for a successful run of code.py's `convert`: the input parsed
to at least one record, the export succeeded, and the returned pair is the
built table with the scipy-based statistics. -/
theorem convert1_ok {lines : List String} {ex : Bool} {tbl : List Row} {st : Stats}
    (h : (convert1 (.content lines) ex).result = .ok (tbl, st)) :
    parseRecords lines ≠ [] ∧ tbl = mkTable (parseRecords lines) ∧
    st = statsOf1 (lengthsOf (parseRecords lines)) := by
  by_cases he : (parseRecords lines).isEmpty
  · exfalso
    simp [convert1, he] at h
  · have hne : parseRecords lines ≠ [] := by simpa using he
    cases ex
    · exfalso
      simp [convert1, he] at h
    · simp [convert1, he] at h
      exact ⟨hne, h.1.symm, h.2.symm⟩

/-- Inversion for a successful run of code2's `convert`: the input parsed
to at least one record and the returned pair is the built table with the
value_counts-based statistics, whatever the export outcome. -/
theorem convert2_ok {lines : List String} {ex : Bool} {tbl : List Row} {st : Stats}
    (h : (convert2 (.content lines) ex).result = .ok (tbl, st)) :
    parseRecords lines ≠ [] ∧ tbl = mkTable (parseRecords lines) ∧
    st = statsOf2 (lengthsOf (parseRecords lines)) := by
  by_cases he : (parseRecords lines).isEmpty
  · exfalso
    simp [convert2, he] at h
  · have hne : parseRecords lines ≠ [] := by simpa using he
    simp [convert2, he] at h
    exact ⟨hne, h.1.symm, h.2.symm⟩

/-- The mode field of code.py's stats is the scipy mode value. -/
theorem statsOf1_mode (l : List Nat) : (statsOf1 l).mode = (scipyMode l).1 := rfl

/-- The mode_count field of code.py's stats is the scipy mode count. -/
theorem statsOf1_modeCount (l : List Nat) :
    (statsOf1 l).modeCount = (scipyMode l).2 := rfl

/-- The mode field of code2's stats is the value_counts mode value. -/
theorem statsOf2_mode (l : List Nat) : (statsOf2 l).mode = (pandasMode l).1 := rfl

/-- The mode_count field of code2's stats is the value_counts mode count. -/
theorem statsOf2_modeCount (l : List Nat) :
    (statsOf2 l).modeCount = (pandasMode l).2 := rfl

/-- C1 (corrected): when several length values tie for the maximal
occurrence count, `convert` of src/code.py returns the smallest such value,
not the largest — `scipy.stats.mode` resolves ties downward.  On success
the returned mode occurs in the Length column with frequency `mode_count`,
no value is more frequent, and the mode is at most every equally frequent
value. -/
theorem c1_mode_tie_smallest (lines : List String) (ex : Bool) (tbl : List Row)
    (st : Stats) (h : (convert1 (.content lines) ex).result = .ok (tbl, st)) :
    st.mode ∈ tbl.map Row.Length ∧
    st.modeCount = (tbl.map Row.Length).count st.mode ∧
    (∀ v ∈ tbl.map Row.Length, (tbl.map Row.Length).count v ≤ st.modeCount) ∧
    (∀ v ∈ tbl.map Row.Length, (tbl.map Row.Length).count v = st.modeCount →
      st.mode ≤ v) := by
  obtain ⟨hne, htbl, hst⟩ := convert1_ok h
  subst htbl
  subst hst
  rw [mkTable_map_length, statsOf1_mode, statsOf1_modeCount]
  exact scipyMode_spec _ (lengthsOf_ne_nil _ hne)

/-- C1 counterexample: on the specification's own tie example — record
lengths `[3, 3, 5, 5, 7]` — `convert` of src/code.py returns mode 3 with
count 2, not the claimed largest tied value 5. -/
theorem c1_mode_tie_counterexample :
    (convert1 (.content tieLines) true).result.map
        (fun p => (p.2.mode, p.2.modeCount)) = .ok (3, 2) ∧
    ((3, 2) : Nat × Nat) ≠ (5, 2) := by
  constructor
  · rfl
  · decide

/-- C1 witness: the smallest-tie theorem applied to the concrete tie input;
the returned mode is at most the tied value 5. -/
theorem c1_mode_tie_smallest_witness :
    (5 : Nat) ∈ (mkTable (parseRecords tieLines)).map Row.Length ∧
    ((mkTable (parseRecords tieLines)).map Row.Length).count 5 =
      (statsOf1 (lengthsOf (parseRecords tieLines))).modeCount ∧
    (statsOf1 (lengthsOf (parseRecords tieLines))).mode ≤ 5 :=
  ⟨by decide, by decide,
    (c1_mode_tie_smallest tieLines true (mkTable (parseRecords tieLines))
      (statsOf1 (lengthsOf (parseRecords tieLines))) rfl).2.2.2 5
      (by decide) (by decide)⟩

/-- C2 (confirmed): an input parsing to zero records makes code.py's
`convert` take the dedicated no-sequences warning path and code2's
`convert` raise IndexError at `vc.index[0]`; in both variants no table or
statistics is returned and `project_output.csv` is not written. -/
theorem c2_empty_input (lines : List String) (ex : Bool)
    (h : parseRecords lines = []) :
    convert1 (.content lines) ex = ⟨false, .error .noSequences⟩ ∧
    convert2 (.content lines) ex = ⟨false, .error .indexError⟩ := by
  constructor
  · simp [convert1, h]
  · simp [convert2, h]

/-- C2 witness: a file with no header line parses to zero records; both
variants fail without writing output. -/
theorem c2_empty_input_witness :
    parseRecords ["ACGT"] = [] ∧
    convert1 (.content ["ACGT"]) true = ⟨false, .error .noSequences⟩ ∧
    convert2 (.content ["ACGT"]) true = ⟨false, .error .indexError⟩ :=
  ⟨rfl, (c2_empty_input ["ACGT"] true rfl).1, (c2_empty_input ["ACGT"] true rfl).2⟩

/-- C3 counterexample: with one parsed record and a failing CSV write,
code.py's `convert` does not return the computed table and statistics — the
unguarded `df.to_csv` exception escapes — and no output file is written. -/
theorem c3_export_counterexample :
    (convert1 (.content oneRecLines) false).result = .error .exportException ∧
    (convert1 (.content oneRecLines) false).written = false :=
  ⟨rfl, rfl⟩

/-- C3 (amended): export failure is non-fatal in src/code2.py only:
whatever the export outcome, code2's `convert` on any input with at least
one record returns the already computed table and statistics; src/code.py
instead propagates the export exception and returns nothing (see the
counterexample). -/
theorem c3_export_nonfatal_code2 (lines : List String) (ex : Bool)
    (h : parseRecords lines ≠ []) :
    (convert2 (.content lines) ex).result =
      .ok (mkTable (parseRecords lines),
        statsOf2 (lengthsOf (parseRecords lines))) := by
  have he : (parseRecords lines).isEmpty = false := List.isEmpty_eq_false.2 h
  simp [convert2, he]

/-- C3 witness: code2 returns the table and statistics even when the CSV
write fails. -/
theorem c3_export_nonfatal_code2_witness :
    (convert2 (.content oneRecLines) false).result =
      .ok (mkTable (parseRecords oneRecLines),
        statsOf2 (lengthsOf (parseRecords oneRecLines))) :=
  c3_export_nonfatal_code2 oneRecLines false (by decide)

/-- C4 (confirmed): the three failure scenarios — missing file, unreadable
file, zero records — produce pairwise distinct outcomes in both variants:
three distinct messagebox paths in code.py, three distinct exception
classes in code2. -/
theorem c4_distinct_failures (lines : List String) (ex : Bool)
    (h : parseRecords lines = []) :
    ((convert1 .missing ex).result = .error .fileNotFound ∧
     (convert1 .unreadable ex).result = .error .readError ∧
     (convert1 (.content lines) ex).result = .error .noSequences ∧
     Err1.fileNotFound ≠ Err1.readError ∧ Err1.fileNotFound ≠ Err1.noSequences ∧
     Err1.readError ≠ Err1.noSequences) ∧
    ((convert2 .missing ex).result = .error .fileNotFoundError ∧
     (convert2 .unreadable ex).result = .error .osError ∧
     (convert2 (.content lines) ex).result = .error .indexError ∧
     Err2.fileNotFoundError ≠ Err2.osError ∧
     Err2.fileNotFoundError ≠ Err2.indexError ∧
     Err2.osError ≠ Err2.indexError) := by
  refine ⟨⟨rfl, rfl, ?_, by decide, by decide, by decide⟩,
    ⟨rfl, rfl, ?_, by decide, by decide, by decide⟩⟩
  · simp [convert1, h]
  · simp [convert2, h]

/-- C4 witness: the distinct-failure theorem at a concrete headerless
input. -/
theorem c4_distinct_failures_witness :
    (convert1 (.content ["ACGT"]) true).result = .error .noSequences ∧
    (convert2 (.content ["ACGT"]) true).result = .error .indexError :=
  ⟨(c4_distinct_failures ["ACGT"] true rfl).1.2.2.1,
   (c4_distinct_failures ["ACGT"] true rfl).2.2.2.1⟩

/-- C5 (confirmed): any table returned by either `convert` is the parsed
records mapped to rows in parse order, and its row count equals the number
of `>` header lines of the input. -/
theorem c5_table_shape (lines : List String) (ex : Bool) (tbl : List Row)
    (st : Stats)
    (h : (convert1 (.content lines) ex).result = .ok (tbl, st) ∨
         (convert2 (.content lines) ex).result = .ok (tbl, st)) :
    tbl = (parseRecords lines).map rowOf ∧
    tbl.length = (lines.filter isHeader).length := by
  have htbl : tbl = mkTable (parseRecords lines) := by
    rcases h with h | h
    · exact (convert1_ok h).2.1
    · exact (convert2_ok h).2.1
  subst htbl
  refine ⟨rfl, ?_⟩
  rw [mkTable_length, parseRecords_length]

/-- C5 witness: the table-shape theorem at the specification's three-record
scenario. -/
theorem c5_table_shape_witness :
    mkTable (parseRecords demoLines) = (parseRecords demoLines).map rowOf ∧
    (mkTable (parseRecords demoLines)).length =
      (demoLines.filter isHeader).length :=
  c5_table_shape demoLines true (mkTable (parseRecords demoLines))
    (statsOf1 (lengthsOf (parseRecords demoLines))) (Or.inl rfl)

/-- C6 (confirmed): in any table returned by either `convert`, every row's
Length field equals the character count of that row's Sequence field. -/
theorem c6_length_column (lines : List String) (ex : Bool) (tbl : List Row)
    (st : Stats)
    (h : (convert1 (.content lines) ex).result = .ok (tbl, st) ∨
         (convert2 (.content lines) ex).result = .ok (tbl, st)) :
    ∀ row ∈ tbl, row.Length = row.Sequence.length := by
  have htbl : tbl = mkTable (parseRecords lines) := by
    rcases h with h | h
    · exact (convert1_ok h).2.1
    · exact (convert2_ok h).2.1
  subst htbl
  intro row hrow
  simp only [mkTable] at hrow
  obtain ⟨r, _, hr⟩ := List.mem_map.1 hrow
  rw [← hr]
  rfl

/-- C6 witness: the length-column theorem at a concrete row of the
three-record scenario. -/
theorem c6_length_column_witness :
    Row.mk "seq1" "ACGT" 4 ∈ mkTable (parseRecords demoLines) ∧
    (Row.mk "seq1" "ACGT" 4).Length = (Row.mk "seq1" "ACGT" 4).Sequence.length :=
  ⟨by decide,
    c6_length_column demoLines true (mkTable (parseRecords demoLines))
      (statsOf1 (lengthsOf (parseRecords demoLines))) (Or.inl rfl)
      (Row.mk "seq1" "ACGT" 4) (by decide)⟩

/-- C7 (confirmed): the mean of any returned statistics equals the sum of
the table's Length column divided by its row count — the exact rational the
floating-point mean approximates. -/
theorem c7_mean (lines : List String) (ex : Bool) (tbl : List Row) (st : Stats)
    (h : (convert1 (.content lines) ex).result = .ok (tbl, st) ∨
         (convert2 (.content lines) ex).result = .ok (tbl, st)) :
    st.mean = ((tbl.map Row.Length).sum : ℚ) / (tbl.length : ℚ) := by
  have hts : tbl = mkTable (parseRecords lines) ∧
      st.mean = meanLen (lengthsOf (parseRecords lines)) := by
    rcases h with h | h
    · obtain ⟨_, h1, h2⟩ := convert1_ok h
      exact ⟨h1, by subst h2; rfl⟩
    · obtain ⟨_, h1, h2⟩ := convert2_ok h
      exact ⟨h1, by subst h2; rfl⟩
  obtain ⟨h1, h2⟩ := hts
  subst h1
  rw [h2, mkTable_map_length]
  simp only [meanLen]
  rw [mkTable_length, ← lengthsOf_length]

/-- C7 witness: the mean theorem at the three-record scenario. -/
theorem c7_mean_witness :
    (statsOf1 (lengthsOf (parseRecords demoLines))).mean =
      (((mkTable (parseRecords demoLines)).map Row.Length).sum : ℚ) /
        ((mkTable (parseRecords demoLines)).length : ℚ) :=
  c7_mean demoLines true (mkTable (parseRecords demoLines))
    (statsOf1 (lengthsOf (parseRecords demoLines))) (Or.inl rfl)

/-- C8 (confirmed): the median of any returned statistics is the standard
median of the sorted Length multiset — the middle value at odd row counts,
the average of the two middle values at even row counts. -/
theorem c8_median (lines : List String) (ex : Bool) (tbl : List Row) (st : Stats)
    (h : (convert1 (.content lines) ex).result = .ok (tbl, st) ∨
         (convert2 (.content lines) ex).result = .ok (tbl, st)) :
    ∀ s : List Nat, List.Perm s (tbl.map Row.Length) → List.Sorted (· ≤ ·) s →
      st.median =
        (if tbl.length % 2 = 1 then ((s.getD (tbl.length / 2) 0 : ℕ) : ℚ)
         else (((s.getD (tbl.length / 2 - 1) 0 : ℕ) : ℚ) +
           ((s.getD (tbl.length / 2) 0 : ℕ) : ℚ)) / 2) := by
  have hts : tbl = mkTable (parseRecords lines) ∧
      st.median = medianLen (lengthsOf (parseRecords lines)) := by
    rcases h with h | h
    · obtain ⟨_, h1, h2⟩ := convert1_ok h
      exact ⟨h1, by subst h2; rfl⟩
    · obtain ⟨_, h1, h2⟩ := convert2_ok h
      exact ⟨h1, by subst h2; rfl⟩
  obtain ⟨h1, h2⟩ := hts
  subst h1
  intro s hperm hsort
  rw [mkTable_map_length] at hperm
  have hs : s = List.insertionSort (· ≤ ·) (lengthsOf (parseRecords lines)) :=
    List.eq_of_perm_of_sorted
      (hperm.trans (List.perm_insertionSort _ _).symm) hsort
      (List.sorted_insertionSort _ _)
  rw [h2]
  simp only [medianLen]
  rw [mkTable_length, ← lengthsOf_length, hs]

/-- C8 witness: the median theorem at the three-record scenario, with the
sorted column `[3, 4, 6]` and odd row count 3. -/
theorem c8_median_witness :
    (statsOf1 (lengthsOf (parseRecords demoLines))).median =
      (if (mkTable (parseRecords demoLines)).length % 2 = 1
       then ((([3, 4, 6] : List Nat).getD
         ((mkTable (parseRecords demoLines)).length / 2) 0 : ℕ) : ℚ)
       else (((([3, 4, 6] : List Nat).getD
           ((mkTable (parseRecords demoLines)).length / 2 - 1) 0 : ℕ) : ℚ) +
         ((([3, 4, 6] : List Nat).getD
           ((mkTable (parseRecords demoLines)).length / 2) 0 : ℕ) : ℚ)) / 2) :=
  c8_median demoLines true (mkTable (parseRecords demoLines))
    (statsOf1 (lengthsOf (parseRecords demoLines))) (Or.inl rfl)
    [3, 4, 6] (by decide) (by decide)

/-- C9 counterexample: on record lengths `[5, 5, 3, 3]` the two variants
disagree — scipy resolves the tie to the smallest value 3, while the
twice-sorted value_counts selection of code2 yields 5. -/
theorem c9_mode_counterexample :
    (convert1 (.content tieLines2) true).result.map (fun p => p.2.mode) =
      .ok 3 ∧
    (convert2 (.content tieLines2) true).result.map (fun p => p.2.mode) =
      .ok 5 ∧
    (3 : Nat) ≠ 5 := by
  refine ⟨rfl, rfl, by decide⟩

/-- C9 (amended): the two mode selections always agree on the count (the
maximal frequency), and agree on the mode itself whenever a single value
attains the maximal frequency; tied maxima may be resolved differently. -/
theorem c9_mode_equivalence (l : List Nat) (h : l ≠ []) :
    (scipyMode l).2 = (pandasMode l).2 ∧
    ((∀ v ∈ l, ∀ w ∈ l, (∀ u ∈ l, l.count u ≤ l.count v) →
        (∀ u ∈ l, l.count u ≤ l.count w) → v = w) →
      scipyMode l = pandasMode l) := by
  refine ⟨modeCounts_eq l h, ?_⟩
  intro huniq
  obtain ⟨hm1, hc1, hmax1, _⟩ := scipyMode_spec l h
  obtain ⟨hm2, hc2, hmax2⟩ := pandasMode_spec l h
  have h1 : ∀ u ∈ l, l.count u ≤ l.count (scipyMode l).1 := by
    intro u hu
    rw [← hc1]
    exact hmax1 u hu
  have h2 : ∀ u ∈ l, l.count u ≤ l.count (pandasMode l).1 := by
    intro u hu
    rw [← hc2]
    exact hmax2 u hu
  exact Prod.ext_iff.2 ⟨huniq _ hm1 _ hm2 h1 h2, modeCounts_eq l h⟩

/-- C9 witness: on lengths `[3, 3, 7]` the maximal frequency is attained by
3 alone, and the two selections agree. -/
theorem c9_mode_equivalence_witness :
    (scipyMode [3, 3, 7]).2 = (pandasMode [3, 3, 7]).2 ∧
    scipyMode [3, 3, 7] = pandasMode [3, 3, 7] :=
  ⟨(c9_mode_equivalence [3, 3, 7] (by decide)).1,
   (c9_mode_equivalence [3, 3, 7] (by decide)).2 (by decide)⟩

/-- C10 (confirmed): the mode of any returned statistics occurs in the
table's Length column, its count is the number of rows carrying that
length, and the count lies between 1 and the row count. -/
theorem c10_mode_membership (lines : List String) (ex : Bool) (tbl : List Row)
    (st : Stats)
    (h : (convert1 (.content lines) ex).result = .ok (tbl, st) ∨
         (convert2 (.content lines) ex).result = .ok (tbl, st)) :
    st.mode ∈ tbl.map Row.Length ∧
    st.modeCount = (tbl.map Row.Length).count st.mode ∧
    1 ≤ st.modeCount ∧ st.modeCount ≤ tbl.length := by
  rcases h with h | h
  · obtain ⟨hne, h1, h2⟩ := convert1_ok h
    subst h1
    subst h2
    rw [mkTable_map_length, statsOf1_mode, statsOf1_modeCount]
    obtain ⟨hm, hc, _, _⟩ := scipyMode_spec _ (lengthsOf_ne_nil _ hne)
    refine ⟨hm, hc, ?_, ?_⟩
    · rw [hc]
      exact List.count_pos_iff.2 hm
    · rw [hc, mkTable_length, ← lengthsOf_length]
      exact List.count_le_length _ _
  · obtain ⟨hne, h1, h2⟩ := convert2_ok h
    subst h1
    subst h2
    rw [mkTable_map_length, statsOf2_mode, statsOf2_modeCount]
    obtain ⟨hm, hc, _⟩ := pandasMode_spec _ (lengthsOf_ne_nil _ hne)
    refine ⟨hm, hc, ?_, ?_⟩
    · rw [hc]
      exact List.count_pos_iff.2 hm
    · rw [hc, mkTable_length, ← lengthsOf_length]
      exact List.count_le_length _ _

/-- C10 witness: the mode-membership theorem at the three-record
scenario. -/
theorem c10_mode_membership_witness :
    (statsOf1 (lengthsOf (parseRecords demoLines))).mode ∈
      (mkTable (parseRecords demoLines)).map Row.Length ∧
    (statsOf1 (lengthsOf (parseRecords demoLines))).modeCount =
      ((mkTable (parseRecords demoLines)).map Row.Length).count
        (statsOf1 (lengthsOf (parseRecords demoLines))).mode ∧
    1 ≤ (statsOf1 (lengthsOf (parseRecords demoLines))).modeCount ∧
    (statsOf1 (lengthsOf (parseRecords demoLines))).modeCount ≤
      (mkTable (parseRecords demoLines)).length :=
  c10_mode_membership demoLines true (mkTable (parseRecords demoLines))
    (statsOf1 (lengthsOf (parseRecords demoLines))) (Or.inl rfl)

end FastaMicro
